import Mathlib

/-!
Verification of the command grammar and playback-control core of ncspot.

The Rust sources embedded here are `src/command.rs` (the command parser),
`src/commands.rs` (the volume command handlers), `src/spotify.rs` (the
playback session controller and the worker epilogue) and `src/application.rs`
(the top-level event loop).  Machine integers are modelled as `Nat`/`Int`
with explicit bounds; `u16`/`u32` overflow points carry an explicit
`% 2 ^ 16` / range check where the Rust code can overflow or saturate.

Two pieces of externally-crated behaviour are abstracted as parameters so
that every theorem holds for *every* possible behaviour of them:
`pd` models the `parse_duration` crate (human duration expressions such as
"1m30s", returning milliseconds or an error message) and `pf` models Rust's
`f32::from_str` (floating point, used only by the `move` command).
-/

namespace Ncspot

/-- `RepeatSetting` from `src/queue.rs`.  Modelled from the spec: the queue
module is not part of the provided sources; §4.1 of the spec lists the three
modes (RepeatPlaylist, RepeatTrack, None). -/
inductive RepeatSetting where
  | None
  | RepeatPlaylist
  | RepeatTrack
deriving Repr, DecidableEq

/-- `TargetMode` from `src/command.rs`. -/
inductive TargetMode where
  | Current
  | Selected
deriving Repr, DecidableEq

/-- `MoveMode` from `src/command.rs`. -/
inductive MoveMode where
  | Up
  | Down
  | Left
  | Right
  | Playing
deriving Repr, DecidableEq

/-- `MoveAmount` from `src/command.rs`.  `Integer` carries an `i32`, `Float`
an `f32` (represented by `Float`; no theorem below inspects the float). -/
inductive MoveAmount where
  | Integer (n : Int)
  | Float (f : Float)
  | Extreme
deriving Repr

/-- `SortKey` from `src/command.rs`. -/
inductive SortKey where
  | Title
  | Duration
  | Artist
  | Album
  | Added
deriving Repr, DecidableEq

/-- `SortDirection` from `src/command.rs`. -/
inductive SortDirection where
  | Ascending
  | Descending
deriving Repr, DecidableEq

/-- `JumpMode` from `src/command.rs`. -/
inductive JumpMode where
  | Previous
  | Next
  | Query (q : String)
deriving Repr, DecidableEq

/-- `ShiftMode` from `src/command.rs`. -/
inductive ShiftMode where
  | Up
  | Down
deriving Repr, DecidableEq

/-- `GotoMode` from `src/command.rs`. -/
inductive GotoMode where
  | Album
  | Artist
deriving Repr, DecidableEq

/-- `SeekDirection` from `src/command.rs`: `Relative(i32)` or `Absolute(u32)`. -/
inductive SeekDirection where
  | Relative (ms : Int)
  | Absolute (ms : Nat)
deriving Repr, DecidableEq

/-- `Command` from `src/command.rs`. -/
inductive Command where
  | Quit
  | TogglePlay
  | Stop
  | Previous
  | Next
  | Clear
  | Queue
  | PlayNext
  | Play
  | UpdateLibrary
  | Focus (target : String)
  | Seek (dir : SeekDirection)
  | VolumeUp (amount : Nat)
  | VolumeDown (amount : Nat)
  | Repeat (mode : Option RepeatSetting)
  | Shuffle (switch : Option Bool)
  | Back
  | Open (mode : TargetMode)
  | Goto (mode : GotoMode)
  | Move (mode : MoveMode) (amount : MoveAmount)
  | Shift (dir : ShiftMode) (amount : Option Int)
  | Search (term : String)
  | Jump (mode : JumpMode)
  | Help
  | Noop
  | Sort (key : SortKey) (direction : SortDirection)
  | Logout
  | ShowRecommendations (mode : TargetMode)
  | Redraw
  | Execute (cmd : String)
  | Reconnect
deriving Repr

/-- `CommandParseError` from `src/command.rs`. -/
inductive CommandParseError where
  | NoSuchCommand (cmd : String)
  | InsufficientArgs (cmd : String) (hint : Option String)
  | BadEnumArg (arg : String) (accept : List String) (opt : Bool)
  | ArgParseError (arg : String) (err : String)
deriving Repr, DecidableEq

/-! ### Integer parsing (Rust `str::parse` for unsigned / signed integers)

Rust's `FromStr` for integers accepts an optional sign (`+` for unsigned
types, `+`/`-` for signed ones) followed by one or more ASCII decimal
digits, and fails on out-of-range values.  The error messages mirror the
`Display` of `core::num::ParseIntError` (`err.to_string()` in the source). -/

/-- Accumulate decimal digits; fails on any non-digit character. -/
def digitsValAux : Nat → List Char → Option Nat
  | acc, [] => some acc
  | acc, c :: rest =>
    if c.isDigit then digitsValAux (acc * 10 + (c.toNat - 48)) rest else none

/-- Value of a non-empty all-digit character list. -/
def parseNatDigits : List Char → Option Nat
  | [] => none
  | c :: rest =>
    if c.isDigit then digitsValAux (c.toNat - 48) rest else none

/-- Rust `str::parse::<uN>()` with maximum value `bound`
(`u16`: `bound = 65535`; `u32`: `bound = 4294967295`). -/
def parseUIntE (bound : Nat) (s : String) : Except String Nat :=
  match s.data with
  | [] => .error "cannot parse integer from empty string"
  | cs =>
    let digits := match cs with
      | '+' :: rest => rest
      | _ => cs
    match parseNatDigits digits with
    | none => .error "invalid digit found in string"
    | some n =>
      if n ≤ bound then .ok n
      else .error "number too large to fit in target type"

/-- `str::parse::<u32>()`, keeping only success/failure (the seek arm
discards the error and falls back to the duration parser). -/
def parseU32 (s : String) : Option Nat :=
  match parseUIntE 4294967295 s with
  | .ok n => some n
  | .error _ => none

/-- Rust `str::parse::<i32>()`. -/
def parseI32E (s : String) : Except String Int :=
  match s.data with
  | [] => .error "cannot parse integer from empty string"
  | '-' :: rest =>
    match parseNatDigits rest with
    | none => .error "invalid digit found in string"
    | some n =>
      if n ≤ 2147483648 then .ok (-(Int.ofNat n))
      else .error "number too small to fit in target type"
  | '+' :: rest =>
    match parseNatDigits rest with
    | none => .error "invalid digit found in string"
    | some n =>
      if n ≤ 2147483647 then .ok (Int.ofNat n)
      else .error "number too large to fit in target type"
  | cs =>
    match parseNatDigits cs with
    | none => .error "invalid digit found in string"
    | some n =>
      if n ≤ 2147483647 then .ok (Int.ofNat n)
      else .error "number too large to fit in target type"

/-! ### The separator state machine of `parse` (`src/command.rs` 198-222)

The input is scanned character by character; `;` separates command strings
while the two-character escape `;;` pushes a literal `;` into the current
command string.  `command_inputs` starts as `vec![""]` and characters are
pushed onto its last element (`command_idx` always addresses the last
element in the source). -/

/-- Push a character onto the last accumulated command string
(`command_inputs[command_idx].push(c)`). -/
def pushLast : List String → Char → List String
  | [], c => [String.singleton c]
  | [s], c => [s.push c]
  | s :: rest, c => s :: pushLast rest c

/-- The scanning loop of `parse`: `sep` is true in state
`ParseState::SeparatorEncountered`. -/
def splitLoop : List Char → List String → Bool → List String
  | [], inputs, _ => inputs
  | c :: rest, inputs, sep =>
    if sep then
      if c = ';' then splitLoop rest (pushLast inputs c) false
      else splitLoop rest (inputs ++ [String.singleton c]) false
    else
      if c = ';' then splitLoop rest inputs true
      else splitLoop rest (pushLast inputs c) false

/-- The `command_inputs` produced by the first loop of `parse`. -/
def splitCommands (input : String) : List String :=
  splitLoop input.data [""] false

/-! ### Whitespace splitting (`command_input.split_whitespace()`) -/

/-- Worker for `splitWhitespace`: `acc` is the token accumulated so far. -/
def splitWsAux : List Char → List Char → List String
  | [], acc => if acc.isEmpty then [] else [⟨acc⟩]
  | c :: rest, acc =>
    if c.isWhitespace then
      if acc.isEmpty then splitWsAux rest []
      else (⟨acc⟩ : String) :: splitWsAux rest []
    else splitWsAux rest (acc ++ [c])

/-- Rust `str::split_whitespace`: whitespace-separated tokens, empties
dropped (tokens are never empty). -/
def splitWhitespace (s : String) : List String :=
  splitWsAux s.data []

/-- Rust `str::trim`: strip leading and trailing whitespace. -/
def trimChars (cs : List Char) : List Char :=
  ((cs.dropWhile Char.isWhitespace).reverse.dropWhile Char.isWhitespace).reverse

/-! ### The per-command parser (`src/command.rs` 224-561)

`pd` abstracts the external `parse_duration` crate (returns milliseconds or
an error message rendered by `err.to_string()`); `pf` abstracts Rust's
`f32::from_str`.  Every theorem below quantifies over both. -/

/-- The `unsigned_millis` computation of the seek arm: the trimmed text is
parsed as raw `u32` milliseconds, falling back to the duration parser whose
result (`dur.as_millis()`) must fit in a `u32`. -/
def seekMillis (pd : String → Except String Nat) (duration_raw : String) :
    Except CommandParseError Nat :=
  match parseU32 duration_raw with
  | some millis => .ok millis
  | none =>
    match pd duration_raw with
    | .error e => .error (.ArgParseError duration_raw e)
    | .ok ms =>
      if ms ≤ 4294967295 then .ok ms
      else .error (.ArgParseError duration_raw "Duration value too large")

/-- The `duration_raw` computation of the seek arm: if the argument begins
with `+` or `-` the sign is stripped (`chars().skip(1)`) and the remainder
trimmed; otherwise the argument is used as-is. -/
def durationRaw (firstChar : Option Char) (arg : String) : String :=
  match firstChar with
  | some '+' | some '-' => ⟨trimChars (arg.data.drop 1)⟩
  | _ => arg

/-- The `seek_direction` computation of the seek arm: signed input goes
through `i32::try_from` (rejecting magnitudes above `i32::MAX`), unsigned
input is used as `u32` directly. -/
def seekDirectionOf (firstChar : Option Char) (unsigned_millis : Nat)
    (duration_raw : String) : Except CommandParseError (Option Command) :=
  match firstChar with
  | some '+' =>
    if unsigned_millis ≤ 2147483647 then
      .ok (some (.Seek (.Relative (Int.ofNat unsigned_millis))))
    else .error (.ArgParseError duration_raw "Duration value too large")
  | some '-' =>
    if unsigned_millis ≤ 2147483647 then
      .ok (some (.Seek (.Relative (-(Int.ofNat unsigned_millis)))))
    else .error (.ArgParseError duration_raw "Duration value too large")
  | _ => .ok (some (.Seek (.Absolute unsigned_millis)))

/-- The seek arm of `parse` (`src/command.rs` 250-294). -/
def seekArm (pd : String → Except String Nat) (args : List String) :
    Except CommandParseError (Option Command) :=
  if args.isEmpty then
    .error (.InsufficientArgs "seek" (some "a duration"))
  else
    let arg := " ".intercalate args
    let firstChar := arg.data.head?
    let duration_raw := durationRaw firstChar arg
    match seekMillis pd duration_raw with
    | .error e => .error e
    | .ok unsigned_millis => seekDirectionOf firstChar unsigned_millis duration_raw

/-- `volup`/`voldown` amount: optional `u16`, default 1. -/
def volAmount (args : List String) : Except CommandParseError Nat :=
  match args.head? with
  | some amount_raw =>
    match parseUIntE 65535 amount_raw with
    | .ok n => .ok n
    | .error e => .error (.ArgParseError amount_raw e)
  | none => .ok 1

/-- First half of the move arm: resolve the direction. -/
def moveModeOf (move_mode_raw : String) : Except CommandParseError MoveMode :=
  match move_mode_raw with
  | "playing" => .ok .Playing
  | "top" | "pageup" | "up" => .ok .Up
  | "bottom" | "pagedown" | "down" => .ok .Down
  | "leftmost" | "pageleft" | "left" => .ok .Left
  | "rightmost" | "pageright" | "right" => .ok .Right
  | _ => .error (.BadEnumArg move_mode_raw
      ["playing", "top", "bottom", "leftmost", "rightmost", "pageup",
       "pagedown", "pageleft", "pageright", "up", "down", "left", "right"]
      false)

/-- Second half of the move arm: resolve the amount; the catch-all arm is
unreachable in the source (the direction match has already rejected any
other `move_mode_raw`). -/
def moveAmountOf (pf : String → Option Float) (move_mode_raw : String)
    (arg2 : Option String) : Except CommandParseError MoveAmount :=
  match move_mode_raw with
  | "playing" => .ok (.Integer 1)
  | "top" | "bottom" | "leftmost" | "rightmost" => .ok .Extreme
  | "pageup" | "pagedown" | "pageleft" | "pageright" =>
    match arg2 with
    | some amount_raw =>
      match pf amount_raw with
      | some f => .ok (.Float f)
      | none => .error (.ArgParseError amount_raw "invalid float literal")
    | none => .ok (.Integer 1)
  | "up" | "down" | "left" | "right" =>
    match arg2 with
    | some amount_raw =>
      match parseI32E amount_raw with
      | .ok n => .ok (.Integer n)
      | .error e => .error (.ArgParseError amount_raw e)
    | none => .ok (.Integer 1)
  | _ => .ok (.Integer 1)

/-- The big match on the leading token of one command string
(`src/command.rs` 231-556).  `some cmd` is a parsed command, the error
cases mirror the source's error sites exactly. -/
def parseNamed (pd : String → Except String Nat) (pf : String → Option Float)
    (command : String) (args : List String) :
    Except CommandParseError (Option Command) :=
  match command with
  | "quit" | "q" | "x" => .ok (some .Quit)
  | "playpause" | "pause" | "toggleplay" | "toggleplayback" =>
    .ok (some .TogglePlay)
  | "stop" => .ok (some .Stop)
  | "previous" => .ok (some .Previous)
  | "next" => .ok (some .Next)
  | "clear" => .ok (some .Clear)
  | "queue" => .ok (some .Queue)
  | "playnext" => .ok (some .PlayNext)
  | "play" => .ok (some .Play)
  | "update" => .ok (some .UpdateLibrary)
  | "focus" =>
    match args.head? with
    | none => .error (.InsufficientArgs "focus" (some "queue|search|library"))
    | some target => .ok (some (.Focus target))
  | "seek" => seekArm pd args
  | "volup" =>
    match volAmount args with
    | .error e => .error e
    | .ok amount => .ok (some (.VolumeUp amount))
  | "voldown" =>
    match volAmount args with
    | .error e => .error e
    | .ok amount => .ok (some (.VolumeDown amount))
  | "repeat" | "loop" =>
    match args.head? with
    | some "list" | some "playlist" | some "queue" =>
      .ok (some (.Repeat (some .RepeatPlaylist)))
    | some "track" | some "once" | some "single" =>
      .ok (some (.Repeat (some .RepeatTrack)))
    | some "none" | some "off" => .ok (some (.Repeat (some .None)))
    | some arg => .error (.BadEnumArg arg
        ["list", "playlist", "queue", "track", "once", "single", "none", "off"]
        true)
    | none => .ok (some (.Repeat none))
  | "shuffle" =>
    match args.head? with
    | some "on" => .ok (some (.Shuffle (some true)))
    | some "off" => .ok (some (.Shuffle (some false)))
    | some arg => .error (.BadEnumArg arg ["on", "off"] true)
    | none => .ok (some (.Shuffle none))
  | "back" => .ok (some .Back)
  | "open" =>
    match args.head? with
    | none => .error (.InsufficientArgs "open" (some "selected|current"))
    | some "selected" => .ok (some (.Open .Selected))
    | some "current" => .ok (some (.Open .Current))
    | some target_mode_raw =>
      .error (.BadEnumArg target_mode_raw ["selected", "current"] false)
  | "goto" =>
    match args.head? with
    | none => .error (.InsufficientArgs "goto" (some "album|artist"))
    | some "album" => .ok (some (.Goto .Album))
    | some "artist" => .ok (some (.Goto .Artist))
    | some goto_mode_raw =>
      .error (.BadEnumArg goto_mode_raw ["album", "artist"] false)
  | "move" =>
    match args.head? with
    | none => .error (.InsufficientArgs "move" (some "a direction"))
    | some move_mode_raw =>
      match moveModeOf move_mode_raw with
      | .error e => .error e
      | .ok move_mode =>
        match moveAmountOf pf move_mode_raw (args.get? 1) with
        | .error e => .error e
        | .ok move_amount => .ok (some (.Move move_mode move_amount))
  | "shift" =>
    match args.head? with
    | none => .error (.InsufficientArgs "shift" (some "up|down"))
    | some shift_dir_raw =>
      let shift_dir : Except CommandParseError ShiftMode :=
        match shift_dir_raw with
        | "up" => .ok .Up
        | "down" => .ok .Down
        | _ => .error (.BadEnumArg shift_dir_raw ["up", "down"] false)
      match shift_dir with
      | .error e => .error e
      | .ok dir =>
        match args.get? 1 with
        | some amount_raw =>
          match parseI32E amount_raw with
          | .ok amount => .ok (some (.Shift dir (some amount)))
          | .error e => .error (.ArgParseError amount_raw e)
        | none => .ok (some (.Shift dir none))
  | "search" => .ok (some (.Search (" ".intercalate args)))
  | "jump" => .ok (some (.Jump (.Query (" ".intercalate args))))
  | "jumpnext" => .ok (some (.Jump .Next))
  | "jumpprevious" => .ok (some (.Jump .Previous))
  | "help" => .ok (some .Help)
  | "noop" => .ok (some .Noop)
  | "sort" =>
    match args.head? with
    | none => .error (.InsufficientArgs "sort" (some "a sort key"))
    | some key_raw =>
      let key : Except CommandParseError SortKey :=
        match key_raw with
        | "title" => .ok .Title
        | "duration" => .ok .Duration
        | "album" => .ok .Album
        | "added" => .ok .Added
        | "artist" => .ok .Artist
        | _ => .error (.BadEnumArg key_raw
            ["title", "duration", "album", "added", "artist"] false)
      match key with
      | .error e => .error e
      | .ok k =>
        match args.get? 1 with
        | some "a" | some "asc" | some "ascending" =>
          .ok (some (.Sort k .Ascending))
        | some "d" | some "desc" | some "descending" =>
          .ok (some (.Sort k .Descending))
        | some direction_raw => .error (.BadEnumArg direction_raw
            ["a", "asc", "ascending", "d", "desc", "descending"] true)
        | none => .ok (some (.Sort k .Ascending))
  | "logout" => .ok (some .Logout)
  | "similar" =>
    match args.head? with
    | none => .error (.InsufficientArgs "similar" (some "selected|current"))
    | some "selected" => .ok (some (.ShowRecommendations .Selected))
    | some "current" => .ok (some (.ShowRecommendations .Current))
    | some target_mode_raw =>
      .error (.BadEnumArg target_mode_raw ["selected", "current"] false)
  | "redraw" => .ok (some .Redraw)
  | "exec" => .ok (some (.Execute (" ".intercalate args)))
  | "reconnect" => .ok (some .Reconnect)
  | _ => .error (.NoSuchCommand command)

/-- One command string: split on whitespace, parse if there is a leading
token, skip otherwise (`components.split_first()`). -/
def parseTokens (pd : String → Except String Nat) (pf : String → Option Float) :
    List String → Except CommandParseError (Option Command)
  | [] => .ok none
  | command :: args => parseNamed pd pf command args

/-- One command string, starting from its text. -/
def parseOne (pd : String → Except String Nat) (pf : String → Option Float)
    (command_input : String) : Except CommandParseError (Option Command) :=
  parseTokens pd pf (splitWhitespace command_input)

/-- The per-command loop of `parse`: commands are pushed in order; the first
error aborts the whole call. -/
def parseLoop (pd : String → Except String Nat) (pf : String → Option Float) :
    List String → List Command → Except CommandParseError (List Command)
  | [], commands => .ok commands
  | command_input :: rest, commands =>
    match parseOne pd pf command_input with
    | .error e => .error e
    | .ok none => parseLoop pd pf rest commands
    | .ok (some command) => parseLoop pd pf rest (commands ++ [command])

/-- `parse` from `src/command.rs`. -/
def parse (pd : String → Except String Nat) (pf : String → Option Float)
    (input : String) : Except CommandParseError (List Command) :=
  parseLoop pd pf (splitCommands input) []

/-- A concrete duration parser that recognises nothing; used only to
instantiate witnesses and counterexamples at a closed point. -/
def pdNone : String → Except String Nat := fun _ => .error "unrecognized"

/-- A concrete float parser that recognises nothing; used only to
instantiate witnesses and counterexamples at a closed point. -/
def pfNone : String → Option Float := fun _ => none

/-! ### The playback session controller (`src/spotify.rs`)

Timestamps (`SystemTime`) and durations (`Duration`) are modelled as `Nat`.
The worker command inlet (`mpsc::UnboundedSender<WorkerCommand>`) is
modelled as an `Inlet` carrying a fresh identifier together with a flag
telling whether the receiving side is still alive (`send` on an unbounded
channel fails exactly when the receiver has been dropped). -/

/-- `PlayerEvent` from `src/spotify.rs`. -/
inductive PlayerEvent where
  | Playing (start : Nat)
  | Paused (position : Nat)
  | Stopped
  | FinishedTrack
deriving Repr, DecidableEq

/-- A track reference.  Modelled from the spec: `Playable`
(`src/model/playable.rs`) is not among the provided sources; the spec treats
it as an opaque track handle. -/
structure Playable where
  id : Nat
deriving Repr, DecidableEq

/-- `WorkerCommand` from `src/spotify_worker.rs`.  Modelled from the spec:
that file is not among the provided sources; §3 of the spec lists the
variants, which match the constructor calls in `src/spotify.rs`. -/
inductive WorkerCommand where
  | Load (track : Playable) (start_playing : Bool) (position_ms : Nat)
  | Play
  | Pause
  | Stop
  | Seek (position_ms : Nat)
  | SetVolume (volume : Nat)
  | Preload (track : Playable)
  | Shutdown
deriving Repr, DecidableEq

/-- An opaque queue event payload.  Modelled from the spec: `src/queue.rs`
is not among the provided sources. -/
structure QueueEvent where
  tag : Nat
deriving Repr, DecidableEq

/-- `Event` from `src/events.rs`.  Modelled from the spec: that file is not
among the provided sources; the variants are the ones matched by the run
loop in `src/application.rs` (Player, Queue, SessionDied). -/
inductive Event where
  | Player (state : PlayerEvent)
  | Queue (event : QueueEvent)
  | SessionDied
deriving Repr, DecidableEq

/-- A worker command inlet: `id` distinguishes the channel created by each
`start_worker` call, `receiverAlive` tells whether sends succeed. -/
structure Inlet where
  id : Nat
  receiverAlive : Bool
deriving Repr, DecidableEq

/-- The shared state of `Spotify` (`src/spotify.rs` 47-57): playback status,
the position bookkeeping pair (`elapsed`, `since`), the worker channel and
the lock-free volume.  `nextInlet` is the supply of fresh channel ids. -/
structure SpotifyState where
  status : PlayerEvent
  elapsed : Option Nat
  since : Option Nat
  channel : Option Inlet
  volume : Nat
  nextInlet : Nat
deriving Repr, DecidableEq

/-- `Spotify::start_worker`: a new channel is created and installed in
place of the previous one. -/
def start_worker (s : SpotifyState) : SpotifyState :=
  { s with channel := some ⟨s.nextInlet, true⟩, nextInlet := s.nextInlet + 1 }

/-- The state built by `Spotify::new` (status `Stopped`, no position data,
volume `u16::MAX`) followed by the `start_worker` call it performs. -/
def spotifyNew : SpotifyState :=
  start_worker
    { status := .Stopped, elapsed := none, since := none, channel := none,
      volume := 65535, nextInlet := 0 }

/-- `Spotify::send_worker`: the commands that actually reach the worker.
With a live channel the command is delivered; with a dead receiver or no
channel at all it is logged and dropped (`error!` in the source), and the
call still returns. -/
def send_worker (s : SpotifyState) (cmd : WorkerCommand) : List WorkerCommand :=
  match s.channel with
  | some channel => if channel.receiverAlive then [cmd] else []
  | none => []

/-- `Spotify::load`. -/
def load (s : SpotifyState) (track : Playable) (start_playing : Bool)
    (position_ms : Nat) : SpotifyState × List WorkerCommand :=
  (s, send_worker s (.Load track start_playing position_ms))

/-- `Spotify::play`. -/
def play (s : SpotifyState) : SpotifyState × List WorkerCommand :=
  (s, send_worker s .Play)

/-- `Spotify::pause`. -/
def pause (s : SpotifyState) : SpotifyState × List WorkerCommand :=
  (s, send_worker s .Pause)

/-- `Spotify::stop`. -/
def stop (s : SpotifyState) : SpotifyState × List WorkerCommand :=
  (s, send_worker s .Stop)

/-- `Spotify::seek`. -/
def seek (s : SpotifyState) (position_ms : Nat) :
    SpotifyState × List WorkerCommand :=
  (s, send_worker s (.Seek position_ms))

/-- `Spotify::set_volume`: store the new volume in the atomic, then send
`SetVolume` to the worker. -/
def set_volume (s : SpotifyState) (new_volume : Nat) :
    SpotifyState × List WorkerCommand :=
  let s' := { s with volume := new_volume }
  (s', send_worker s' (.SetVolume new_volume))

/-- `Spotify::preload`. -/
def preload (s : SpotifyState) (track : Playable) :
    SpotifyState × List WorkerCommand :=
  (s, send_worker s (.Preload track))

/-- `Spotify::shutdown`. -/
def shutdown (s : SpotifyState) : SpotifyState × List WorkerCommand :=
  (s, send_worker s .Shutdown)

/-- `Spotify::update_status` (`src/spotify.rs` 263-284). -/
def update_status (s : SpotifyState) (new_status : PlayerEvent) : SpotifyState :=
  match new_status with
  | .Paused position =>
    { s with elapsed := some position, since := none, status := new_status }
  | .Playing playback_start =>
    { s with since := some playback_start, elapsed := none, status := new_status }
  | .Stopped => { s with elapsed := none, since := none, status := new_status }
  | .FinishedTrack =>
    { s with elapsed := none, since := none, status := new_status }

/-- `Spotify::update_track`. -/
def update_track (s : SpotifyState) : SpotifyState :=
  { s with elapsed := none, since := none }

/-- The epilogue of `Spotify::worker` (`src/spotify.rs` 197-204): once the
run loop exits, the worker clears the shared channel and then emits
`SessionDied`.  The returned state is the one in which the event is
emitted. -/
def workerEpilogue (s : SpotifyState) : SpotifyState × List Event :=
  ({ s with channel := none }, [Event.SessionDied])

/-- The event dispatch of the top-level run loop
(`src/application.rs` 219-240).  Queue events and the `queue.next` call on
`FinishedTrack` go to the external queue collaborator and do not touch the
controller state. -/
def handleEvent (s : SpotifyState) (event : Event) : SpotifyState :=
  match event with
  | .Player state => update_status s state
  | .Queue _ => s
  | .SessionDied => start_worker s

/-- `VOLUME_PERCENT` from `src/spotify.rs` 34:
`((u16::max_value() as f64) * 1.0 / 100.0) as u16 = (655.35) as u16 = 655`
(the float-to-integer cast truncates). -/
def VOLUME_PERCENT : Nat := 655

/-- The `Command::VolumeUp(amount)` arm of
`CommandManager::handle_default_commands` (`src/commands.rs` 129-136):
`spotify.volume().saturating_add(VOLUME_PERCENT * amount)` stored via
`set_volume`.  The `u16` multiplication is modelled wrapping
(`% 2 ^ 16`, release-mode Rust semantics). -/
def handleVolumeUp (s : SpotifyState) (amount : Nat) :
    SpotifyState × List WorkerCommand :=
  let volume := min (s.volume + VOLUME_PERCENT * amount % 65536) 65535
  set_volume s volume

/-- The `Command::VolumeDown(amount)` arm (`src/commands.rs` 137-145):
`saturating_sub` is truncated subtraction on `Nat`. -/
def handleVolumeDown (s : SpotifyState) (amount : Nat) :
    SpotifyState × List WorkerCommand :=
  let volume := s.volume - VOLUME_PERCENT * amount % 65536
  set_volume s volume

/-- A position-bookkeeping operation: one `update_status` or one
`update_track` call. -/
inductive PosOp where
  | status (event : PlayerEvent)
  | track
deriving Repr, DecidableEq

/-- Apply one bookkeeping operation to the controller state. -/
def applyPosOp (s : SpotifyState) : PosOp → SpotifyState
  | .status event => update_status s event
  | .track => update_track s

/-! ## Theorems -/

/-- Any sequence of bookkeeping operations preserves the position
invariant: `elapsed` and `since` are never both populated. -/
theorem posOp_foldl_invariant (ops : List PosOp) :
    ∀ s : SpotifyState, (s.elapsed = none ∨ s.since = none) →
      ((ops.foldl applyPosOp s).elapsed = none ∨
        (ops.foldl applyPosOp s).since = none) := by
  induction ops with
  | nil => exact fun s h => h
  | cons op rest ih =>
    intro s _
    apply ih
    cases op with
    | track => simp [applyPosOp, update_track]
    | status event => cases event <;> simp [applyPosOp, update_status]

/-- C1 (counterexample): starting at volume `u16::MAX = 65535`, the
`VolumeUp(1)` handler saturates, and the following `VolumeDown(1)` handler
then drops the volume to `64880`, so the round trip does not leave the
volume unchanged at the upper boundary. -/
theorem C1_volumeUpDown_counterexample :
    ((handleVolumeDown (handleVolumeUp
        { status := .Stopped, elapsed := none, since := none, channel := none,
          volume := 65535, nextInlet := 0 } 1).1 1).1).volume ≠ 65535 := by
  decide

/-- C1 (amended): executing the `VolumeUp(a)` handler and then the
`VolumeDown(a)` handler leaves the controller's volume unchanged whenever
the upward `saturating_add` does not saturate, i.e. whenever
`volume() + VOLUME_PERCENT * a ≤ u16::MAX`; when it saturates the final
volume can be lower than the starting volume. -/
theorem C1_volumeUpDown_roundtrip (s : SpotifyState) (a : Nat)
    (h : s.volume + VOLUME_PERCENT * a ≤ 65535) :
    ((handleVolumeDown (handleVolumeUp s a).1 a).1).volume = s.volume := by
  simp only [handleVolumeUp, handleVolumeDown, set_volume, VOLUME_PERCENT] at *
  omega

/-- C1 (witness): the round trip at volume 1000 with amount 2. -/
theorem C1_volumeUpDown_roundtrip_witness :
    1000 + VOLUME_PERCENT * 2 ≤ 65535 ∧
    ((handleVolumeDown (handleVolumeUp
        { status := .Stopped, elapsed := none, since := none, channel := none,
          volume := 1000, nextInlet := 0 } 2).1 2).1).volume = 1000 :=
  ⟨by decide, C1_volumeUpDown_roundtrip _ 2 (by decide)⟩

/-- C3: `update_status` establishes the documented `elapsed`/`since`
postconditions for every event (Paused(pos) ⇒ elapsed = some pos, since =
none; Playing(start) ⇒ since = some start, elapsed = none;
Stopped/FinishedTrack ⇒ both none), and from the freshly constructed
controller every sequence of `update_status`/`update_track` calls keeps at
least one of `elapsed`, `since` empty — they are never both populated. -/
theorem C3_elapsed_since_invariant :
    (∀ (s : SpotifyState) (pos : Nat),
      (update_status s (.Paused pos)).elapsed = some pos ∧
      (update_status s (.Paused pos)).since = none) ∧
    (∀ (s : SpotifyState) (start : Nat),
      (update_status s (.Playing start)).since = some start ∧
      (update_status s (.Playing start)).elapsed = none) ∧
    (∀ s : SpotifyState,
      (update_status s .Stopped).elapsed = none ∧
      (update_status s .Stopped).since = none) ∧
    (∀ s : SpotifyState,
      (update_status s .FinishedTrack).elapsed = none ∧
      (update_status s .FinishedTrack).since = none) ∧
    (∀ ops : List PosOp,
      (ops.foldl applyPosOp spotifyNew).elapsed = none ∨
      (ops.foldl applyPosOp spotifyNew).since = none) :=
  ⟨fun _ _ => ⟨rfl, rfl⟩,
   fun _ _ => ⟨rfl, rfl⟩,
   fun _ => ⟨rfl, rfl⟩,
   fun _ => ⟨rfl, rfl⟩,
   fun ops => posOp_foldl_invariant ops spotifyNew (Or.inl rfl)⟩

/-- C3 (witness): the invariant after a concrete Playing-then-Paused
sequence of bookkeeping calls. -/
theorem C3_elapsed_since_invariant_witness :
    (([PosOp.status (.Playing 5), PosOp.status (.Paused 3), PosOp.track]
        : List PosOp).foldl applyPosOp spotifyNew).elapsed = none ∨
    (([PosOp.status (.Playing 5), PosOp.status (.Paused 3), PosOp.track]
        : List PosOp).foldl applyPosOp spotifyNew).since = none :=
  C3_elapsed_since_invariant.2.2.2.2
    [PosOp.status (.Playing 5), PosOp.status (.Paused 3), PosOp.track]

/-- C4: when the worker's run loop exits, the epilogue clears the shared
inlet handle and emits exactly `SessionDied` (in a state whose channel is
already cleared); the top-level event loop reacts to every `SessionDied` by
calling `start_worker`, unconditionally, which installs a brand-new inlet
(fresh id), distinct from any previously installed one. -/
theorem C4_sessionDied_restart (s : SpotifyState) :
    (workerEpilogue s).1.channel = none ∧
    (workerEpilogue s).2 = [Event.SessionDied] ∧
    (∀ t : SpotifyState, handleEvent t .SessionDied = start_worker t) ∧
    (handleEvent s .SessionDied).channel = some ⟨s.nextInlet, true⟩ ∧
    (∀ ch : Inlet, s.channel = some ch → ch.id < s.nextInlet →
      (handleEvent s .SessionDied).channel ≠ some ch) := by
  refine ⟨rfl, rfl, fun _ => rfl, rfl, ?_⟩
  intro ch _ hfresh heq
  simp only [handleEvent, start_worker, Option.some.injEq] at heq
  rw [← heq] at hfresh
  exact absurd hfresh (by simp)

/-- C4 (witness): restart after a worker death, at a state holding the
inlet with id 0 and fresh-id supply 1. -/
theorem C4_sessionDied_restart_witness :
    (workerEpilogue
        { status := .Stopped, elapsed := none, since := none,
          channel := some ⟨0, true⟩, volume := 65535, nextInlet := 1 }).1.channel
      = none ∧
    (handleEvent
        { status := .Stopped, elapsed := none, since := none,
          channel := some ⟨0, true⟩, volume := 65535, nextInlet := 1 }
        .SessionDied).channel ≠ some ⟨0, true⟩ :=
  ⟨(C4_sessionDied_restart _).1,
   (C4_sessionDied_restart _).2.2.2.2 ⟨0, true⟩ rfl (by decide)⟩

/-- C5: every mutating controller operation delivers exactly the one
command `send_worker` was asked to deliver; `send_worker` delivers at most
one command, delivers exactly one when a live channel with a live receiver
is installed, and silently drops the command (still returning) when the
receiver is gone or no channel is installed. -/
theorem C5_send_worker_best_effort (s : SpotifyState) :
    (∀ (track : Playable) (sp : Bool) (pos : Nat),
      (load s track sp pos).2 = send_worker s (.Load track sp pos)) ∧
    (play s).2 = send_worker s .Play ∧
    (pause s).2 = send_worker s .Pause ∧
    (stop s).2 = send_worker s .Stop ∧
    (∀ pos : Nat, (seek s pos).2 = send_worker s (.Seek pos)) ∧
    (∀ v : Nat, (set_volume s v).2 = send_worker s (.SetVolume v)) ∧
    (∀ track : Playable, (preload s track).2 = send_worker s (.Preload track)) ∧
    (shutdown s).2 = send_worker s .Shutdown ∧
    (∀ cmd : WorkerCommand, (send_worker s cmd).length ≤ 1) ∧
    (∀ (cmd : WorkerCommand) (ch : Inlet),
      s.channel = some ch → ch.receiverAlive = true → send_worker s cmd = [cmd]) ∧
    (∀ (cmd : WorkerCommand) (ch : Inlet),
      s.channel = some ch → ch.receiverAlive = false → send_worker s cmd = []) ∧
    (∀ cmd : WorkerCommand, s.channel = none → send_worker s cmd = []) := by
  refine ⟨fun _ _ _ => rfl, rfl, rfl, rfl, fun _ => rfl, fun _ => rfl,
    fun _ => rfl, rfl, ?_, ?_, ?_, ?_⟩
  · intro cmd
    simp only [send_worker]
    rcases s.channel with _ | ch
    · simp
    · by_cases h : ch.receiverAlive <;> simp [h]
  · intro cmd ch hch halive
    simp [send_worker, hch, halive]
  · intro cmd ch hch hdead
    simp [send_worker, hch, hdead]
  · intro cmd hch
    simp [send_worker, hch]

/-- C5 (witness): delivery with a live inlet, and dropping with a dead
receiver and with no inlet. -/
theorem C5_send_worker_best_effort_witness :
    send_worker
        { status := .Stopped, elapsed := none, since := none,
          channel := some ⟨0, true⟩, volume := 65535, nextInlet := 1 }
        .Play = [.Play] ∧
    send_worker
        { status := .Stopped, elapsed := none, since := none,
          channel := some ⟨0, false⟩, volume := 65535, nextInlet := 1 }
        .Play = [] ∧
    send_worker
        { status := .Stopped, elapsed := none, since := none,
          channel := none, volume := 65535, nextInlet := 1 }
        .Play = [] :=
  ⟨(C5_send_worker_best_effort _).2.2.2.2.2.2.2.2.2.1 .Play ⟨0, true⟩ rfl rfl,
   (C5_send_worker_best_effort _).2.2.2.2.2.2.2.2.2.2.1 .Play ⟨0, false⟩ rfl rfl,
   (C5_send_worker_best_effort _).2.2.2.2.2.2.2.2.2.2.2 .Play rfl⟩

/-- Tokens produced by `splitWsAux` are never empty: a token is only ever
emitted under a non-emptiness guard. -/
theorem splitWsAux_mem_ne (cs : List Char) : ∀ (acc : List Char) (t : String),
    t ∈ splitWsAux cs acc → t ≠ "" := by
  induction cs with
  | nil =>
    intro acc t ht
    simp only [splitWsAux] at ht
    by_cases h : acc.isEmpty
    · simp [h] at ht
    · simp only [h, Bool.false_eq_true, if_false, List.mem_singleton] at ht
      subst ht
      intro hcontra
      have : acc = [] := congrArg String.data hcontra
      simp [this] at h
  | cons c rest ih =>
    intro acc t ht
    simp only [splitWsAux] at ht
    by_cases hws : c.isWhitespace
    · simp only [hws, if_true] at ht
      by_cases h : acc.isEmpty
      · simp only [h, if_true] at ht
        exact ih [] t ht
      · simp only [h, Bool.false_eq_true, if_false, List.mem_cons] at ht
        rcases ht with rfl | ht
        · intro hcontra
          have : acc = [] := congrArg String.data hcontra
          simp [this] at h
        · exact ih [] t ht
    · simp only [hws, Bool.false_eq_true, if_false] at ht
      exact ih (acc ++ [c]) t ht

/-- C7: for the seek command, a signed argument has the sign stripped and
the remainder trimmed before numeric parsing (so `+1000` and `+  1000` both
yield `Relative 1000`), while an unsigned argument yields `Absolute`.
Quantified over every behaviour of the external duration and float
parsers. -/
theorem C7_seek_sign_handling (pd : String → Except String Nat)
    (pf : String → Option Float) :
    parse pd pf "seek +1000" = .ok [.Seek (.Relative 1000)] ∧
    parse pd pf "seek -1000" = .ok [.Seek (.Relative (-1000))] ∧
    parse pd pf "seek 1000" = .ok [.Seek (.Absolute 1000)] ∧
    parse pd pf "seek +  1000" = .ok [.Seek (.Relative 1000)] :=
  ⟨rfl, rfl, rfl, rfl⟩

/-- C7 (witness): the four seek behaviours at the concrete external
parsers that recognise nothing. -/
theorem C7_seek_sign_handling_witness :
    parse pdNone pfNone "seek +1000" = .ok [.Seek (.Relative 1000)] ∧
    parse pdNone pfNone "seek +  1000" = .ok [.Seek (.Relative 1000)] :=
  ⟨(C7_seek_sign_handling pdNone pfNone).1,
   (C7_seek_sign_handling pdNone pfNone).2.2.2⟩

/-- C10: a command string with no tokens produces no command and no error:
`parse ""`, `parse ";"` and a trailing separator all skip the empty command
string; in general a whitespace-only command string parses to no command,
and every token handed to the per-command parser (in particular the leading
token reported by `NoSuchCommand`) is non-empty. -/
theorem C10_empty_command_strings :
    (∀ (pd : String → Except String Nat) (pf : String → Option Float),
      parse pd pf "" = .ok [] ∧
      parse pd pf ";" = .ok [] ∧
      parse pd pf "stop;" = .ok [.Stop]) ∧
    (∀ (pd : String → Except String Nat) (pf : String → Option Float)
      (s : String), splitWhitespace s = [] → parseOne pd pf s = .ok none) ∧
    (∀ (s t : String), t ∈ splitWhitespace s → t ≠ "") := by
  refine ⟨fun pd pf => ⟨rfl, rfl, rfl⟩, ?_, ?_⟩
  · intro pd pf s h
    unfold parseOne
    rw [h]
    rfl
  · intro s t ht
    exact splitWsAux_mem_ne s.data [] t ht

/-- C10 (witness): a whitespace-only command string is skipped, and the
token of a concrete command string is non-empty. -/
theorem C10_empty_command_strings_witness :
    parseOne pdNone pfNone "   " = .ok none ∧ ("stop" : String) ≠ "" :=
  ⟨C10_empty_command_strings.2.1 pdNone pfNone "   " rfl,
   C10_empty_command_strings.2.2 "stop" "stop" (by decide)⟩

/-- Two strings with the same character data are equal. -/
theorem eq_of_data {a b : String} (h : a.data = b.data) : a = b := by
  cases a; cases b; exact congrArg String.mk h

/-- The character data of a concatenation. -/
theorem data_append (a b : String) : (a ++ b).data = a.data ++ b.data := by
  cases a; cases b; rfl

/-- `durationRaw` on a first character that is neither sign leaves the
argument untouched. -/
theorem durationRaw_other (c : Char) (h1 : c ≠ '+') (h2 : c ≠ '-')
    (arg : String) : durationRaw (some c) arg = arg := by
  unfold durationRaw
  split <;> simp_all

/-- `seekDirectionOf` on a signed first character and a magnitude above
`i32::MAX` is an argument error. -/
theorem seekDirectionOf_signed_big (c : Char) (hc : c = '+' ∨ c = '-')
    (m : Nat) (raw : String) (hbig : 2147483647 < m) :
    seekDirectionOf (some c) m raw =
      .error (.ArgParseError raw "Duration value too large") := by
  rcases hc with rfl | rfl
  · rw [show seekDirectionOf (some '+') m raw =
      (if m ≤ 2147483647 then
        .ok (some (.Seek (.Relative (Int.ofNat m))))
      else
        .error (.ArgParseError raw "Duration value too large")) from rfl]
    rw [if_neg (by omega)]
  · rw [show seekDirectionOf (some '-') m raw =
      (if m ≤ 2147483647 then
        .ok (some (.Seek (.Relative (-(Int.ofNat m)))))
      else
        .error (.ArgParseError raw "Duration value too large")) from rfl]
    rw [if_neg (by omega)]

/-- `seekDirectionOf` on an unsigned first character accepts the full
`u32` range as an absolute position. -/
theorem seekDirectionOf_other (c : Char) (h1 : c ≠ '+') (h2 : c ≠ '-')
    (m : Nat) (raw : String) :
    seekDirectionOf (some c) m raw = .ok (some (.Seek (.Absolute m))) := by
  unfold seekDirectionOf
  split <;> simp_all

/-- `seekMillis` when the raw `u32` parse succeeds. -/
theorem seekMillis_raw (pd : String → Except String Nat) (s : String)
    (n : Nat) (hparse : parseU32 s = some n) : seekMillis pd s = .ok n := by
  unfold seekMillis
  rw [hparse]

/-- The seek arm on a single signed argument whose magnitude exceeds
`i32::MAX`: the sign is stripped, the remainder trimmed, the raw `u32`
parse succeeds, and the `i32::try_from` conversion is rejected. -/
theorem seekArm_signed_big (pd : String → Except String Nat) (c : Char)
    (sd : List Char) (n : Nat) (hc : c = '+' ∨ c = '-')
    (htrim : trimChars sd = sd) (hparse : parseU32 ⟨sd⟩ = some n)
    (hbig : 2147483647 < n) :
    seekArm pd [⟨c :: sd⟩] =
      .error (.ArgParseError ⟨sd⟩ "Duration value too large") := by
  have hraw : durationRaw ((c :: sd).head?) ⟨c :: sd⟩ = ⟨trimChars sd⟩ := by
    rcases hc with rfl | rfl <;> rfl
  have h0 : seekArm pd [⟨c :: sd⟩] =
      (match seekMillis pd (durationRaw ((c :: sd).head?) ⟨c :: sd⟩) with
       | .error e => .error e
       | .ok m =>
         seekDirectionOf ((c :: sd).head?) m
           (durationRaw ((c :: sd).head?) ⟨c :: sd⟩)) := rfl
  rw [h0, hraw, htrim, seekMillis_raw pd _ n hparse]
  exact seekDirectionOf_signed_big c hc n ⟨sd⟩ hbig

/-- The seek arm on a single unsigned argument: any value the raw `u32`
parse accepts — up to `u32::MAX`, not `i32::MAX` — produces
`Seek(Absolute(ms))`. -/
theorem seekArm_unsigned (pd : String → Except String Nat) (sd : List Char)
    (n : Nat) (hhead : ∀ c, sd.head? = some c → c ≠ '+' ∧ c ≠ '-')
    (hparse : parseU32 ⟨sd⟩ = some n) :
    seekArm pd [⟨sd⟩] = .ok (some (.Seek (.Absolute n))) := by
  cases sd with
  | nil => simp [parseU32, parseUIntE] at hparse
  | cons c rest =>
    obtain ⟨h1, h2⟩ := hhead c rfl
    have hraw : durationRaw ((c :: rest).head?) ⟨c :: rest⟩ = ⟨c :: rest⟩ :=
      durationRaw_other c h1 h2 _
    have h0 : seekArm pd [⟨c :: rest⟩] =
        (match seekMillis pd (durationRaw ((c :: rest).head?) ⟨c :: rest⟩) with
         | .error e => .error e
         | .ok m =>
           seekDirectionOf ((c :: rest).head?) m
             (durationRaw ((c :: rest).head?) ⟨c :: rest⟩)) := rfl
    rw [h0, hraw, seekMillis_raw pd _ n hparse]
    exact seekDirectionOf_other c h1 h2 n ⟨c :: rest⟩

/-- C2 (counterexample): `seek 2147483648` — an unsigned millisecond value
whose magnitude exceeds `i32::MAX = 2147483647` — is accepted as
`Seek(Absolute(2147483648))` instead of returning an `ArgParseError`.  Only
signed seek arguments are subject to the `i32` range check; unsigned ones
go through `u32` untouched. -/
theorem C2_seek_range_counterexample :
    parse pdNone pfNone "seek 2147483648" =
      .ok [.Seek (.Absolute 2147483648)] := rfl

/-- C2 (amended): for the `seek` command, a *signed* argument whose value
parses as raw milliseconds above `i32::MAX` is rejected with an
`ArgParseError`, while an *unsigned* argument with the same magnitude is
accepted as `Seek(Absolute(ms))` — the `u32` range (not the `i32` range)
bounds unsigned arguments. -/
theorem C2_seek_i32_check_signed_only (pd : String → Except String Nat)
    (pf : String → Option Float) (s : String) (n : Nat)
    (htrim : trimChars s.data = s.data)
    (hhead : ∀ c, s.data.head? = some c → c ≠ '+' ∧ c ≠ '-')
    (hparse : parseU32 s = some n)
    (hbig : 2147483647 < n) :
    parseTokens pd pf ["seek", ⟨'+' :: s.data⟩] =
      .error (.ArgParseError s "Duration value too large") ∧
    parseTokens pd pf ["seek", ⟨'-' :: s.data⟩] =
      .error (.ArgParseError s "Duration value too large") ∧
    parseTokens pd pf ["seek", s] = .ok (some (.Seek (.Absolute n))) := by
  obtain ⟨sd⟩ := s
  refine ⟨?_, ?_, ?_⟩
  · show seekArm pd [⟨'+' :: sd⟩] = _
    exact seekArm_signed_big pd '+' sd n (Or.inl rfl) htrim hparse hbig
  · show seekArm pd [⟨'-' :: sd⟩] = _
    exact seekArm_signed_big pd '-' sd n (Or.inr rfl) htrim hparse hbig
  · show seekArm pd [⟨sd⟩] = _
    exact seekArm_unsigned pd sd n hhead hparse

/-- C2 (witness): the three behaviours at the boundary value
`2147483648 = i32::MAX + 1`. -/
theorem C2_seek_i32_check_signed_only_witness :
    parseTokens pdNone pfNone ["seek", ⟨'+' :: ("2147483648" : String).data⟩] =
      .error (.ArgParseError "2147483648" "Duration value too large") ∧
    parseTokens pdNone pfNone ["seek", ⟨'-' :: ("2147483648" : String).data⟩] =
      .error (.ArgParseError "2147483648" "Duration value too large") ∧
    parseTokens pdNone pfNone ["seek", "2147483648"] =
      .ok (some (.Seek (.Absolute 2147483648))) :=
  C2_seek_i32_check_signed_only pdNone pfNone "2147483648" 2147483648
    rfl (by decide) rfl (by decide)

/-- Rebuilding a string from its character data is the identity. -/
theorem mk_data (s : String) : (⟨s.data⟩ : String) = s := by
  cases s; rfl

/-- Scanning separator-free characters in the `Normal` state just pushes
them onto the current command string. -/
theorem splitLoop_no_sep (ys : List Char) : ∀ (cs : List Char)
    (inputs : List String), (∀ c ∈ cs, c ≠ ';') →
    splitLoop (cs ++ ys) inputs false =
      splitLoop ys (cs.foldl pushLast inputs) false := by
  intro cs
  induction cs with
  | nil => intro inputs _; rfl
  | cons c rest ih =>
    intro inputs h
    have hc : c ≠ ';' := h c (List.mem_cons_self c rest)
    rw [show splitLoop ((c :: rest) ++ ys) inputs false =
        (if c = ';' then splitLoop (rest ++ ys) inputs true
         else splitLoop (rest ++ ys) (pushLast inputs c) false) from rfl]
    rw [if_neg hc]
    exact ih (pushLast inputs c) fun x hx => h x (List.mem_cons_of_mem c hx)

/-- Pushing characters one by one onto a singleton accumulator builds the
concatenated string. -/
theorem foldl_pushLast_single (cs : List Char) : ∀ sd : List Char,
    cs.foldl pushLast [⟨sd⟩] = [⟨sd ++ cs⟩] := by
  induction cs with
  | nil => intro sd; simp
  | cons c rest ih =>
    intro sd
    show rest.foldl pushLast (pushLast [⟨sd⟩] c) = _
    rw [show pushLast [⟨sd⟩] c = [⟨sd ++ [c]⟩] from rfl, ih (sd ++ [c])]
    simp

/-- Pushing characters one by one onto a two-element accumulator extends
its last element. -/
theorem foldl_pushLast_pair (cs : List Char) : ∀ (a : String) (td : List Char),
    cs.foldl pushLast [a, ⟨td⟩] = [a, ⟨td ++ cs⟩] := by
  induction cs with
  | nil => intro a td; simp
  | cons c rest ih =>
    intro a td
    show rest.foldl pushLast (pushLast [a, ⟨td⟩] c) = _
    rw [show pushLast [a, ⟨td⟩] c = [a, ⟨td ++ [c]⟩] from rfl, ih a (td ++ [c])]
    simp

/-- C6: `parse` splits its input into command strings on `;`, while the
two-character escape `;;` does not separate and instead contributes one
literal `;` to the current command string; consequently
`parse "pause;stop"` yields `[TogglePlay, Stop]` in that order and
`parse "exec echo a;;b"` yields `[Execute "echo a;b"]`. -/
theorem C6_separator_splitting (s t : String)
    (hs : ∀ c ∈ s.data, c ≠ ';') (ht : ∀ c ∈ t.data, c ≠ ';') :
    (t.data ≠ [] → splitCommands (s ++ ";" ++ t) = [s, t]) ∧
    splitCommands (s ++ ";;" ++ t) = [s ++ ";" ++ t] ∧
    (∀ (pd : String → Except String Nat) (pf : String → Option Float),
      parse pd pf "pause;stop" = .ok [.TogglePlay, .Stop]) ∧
    (∀ (pd : String → Except String Nat) (pf : String → Option Float),
      parse pd pf "exec echo a;;b" = .ok [.Execute "echo a;b"]) := by
  have hsingle : s.data.foldl pushLast [""] = [⟨s.data⟩] := by
    have h : s.data.foldl pushLast [""] = [⟨([] : List Char) ++ s.data⟩] :=
      foldl_pushLast_single s.data []
    simpa using h
  have e1 : (s ++ ";" ++ t).data = s.data ++ ';' :: t.data := by
    rw [data_append, data_append]
    show s.data ++ [';'] ++ t.data = _
    simp
  have e2 : (s ++ ";;" ++ t).data = s.data ++ ';' :: ';' :: t.data := by
    rw [data_append, data_append]
    show s.data ++ [';', ';'] ++ t.data = _
    simp
  refine ⟨?_, ?_, fun pd pf => rfl, fun pd pf => rfl⟩
  · intro hne
    unfold splitCommands
    rw [e1, splitLoop_no_sep (';' :: t.data) s.data [""] hs, hsingle]
    rw [show splitLoop (';' :: t.data) [⟨s.data⟩] false =
        splitLoop t.data [⟨s.data⟩] true from rfl]
    rcases hd : t.data with _ | ⟨c, rest⟩
    · exact absurd hd hne
    · have hc : c ≠ ';' := ht c (by rw [hd]; exact List.mem_cons_self c rest)
      have hrest : ∀ x ∈ rest, x ≠ ';' := fun x hx =>
        ht x (by rw [hd]; exact List.mem_cons_of_mem c hx)
      rw [show splitLoop (c :: rest) [⟨s.data⟩] true =
          (if c = ';' then splitLoop rest (pushLast [⟨s.data⟩] c) false
           else splitLoop rest ([⟨s.data⟩] ++ [String.singleton c]) false)
        from rfl]
      rw [if_neg hc]
      rw [show ([⟨s.data⟩] ++ [String.singleton c] : List String) =
          [⟨s.data⟩, ⟨[c]⟩] from rfl]
      rw [show splitLoop rest [⟨s.data⟩, ⟨[c]⟩] false =
          splitLoop (rest ++ []) [⟨s.data⟩, ⟨[c]⟩] false from by
        rw [List.append_nil]]
      rw [splitLoop_no_sep [] rest [⟨s.data⟩, ⟨[c]⟩] hrest]
      rw [show splitLoop [] (rest.foldl pushLast [⟨s.data⟩, ⟨[c]⟩]) false =
          rest.foldl pushLast [⟨s.data⟩, ⟨[c]⟩] from rfl]
      rw [foldl_pushLast_pair rest ⟨s.data⟩ [c], mk_data]
      have h2 : (⟨[c] ++ rest⟩ : String) = t := by
        apply eq_of_data
        rw [hd]
        rfl
      rw [h2]
  · unfold splitCommands
    rw [e2, splitLoop_no_sep (';' :: ';' :: t.data) s.data [""] hs, hsingle]
    rw [show splitLoop (';' :: ';' :: t.data) [⟨s.data⟩] false =
        splitLoop t.data [⟨s.data ++ [';']⟩] false from rfl]
    rw [show splitLoop t.data [⟨s.data ++ [';']⟩] false =
        splitLoop (t.data ++ []) [⟨s.data ++ [';']⟩] false from by
      rw [List.append_nil]]
    rw [splitLoop_no_sep [] t.data [⟨s.data ++ [';']⟩] ht]
    rw [show splitLoop [] (t.data.foldl pushLast [⟨s.data ++ [';']⟩]) false =
        t.data.foldl pushLast [⟨s.data ++ [';']⟩] from rfl]
    rw [foldl_pushLast_single t.data (s.data ++ [';'])]
    congr 1

/-- C6 (witness): the splitting behaviour at the concrete separator-free
strings "ab" and "cd". -/
theorem C6_separator_splitting_witness :
    splitCommands ("ab" ++ ";" ++ "cd") = ["ab", "cd"] ∧
    splitCommands ("ab" ++ ";;" ++ "cd") = ["ab" ++ ";" ++ "cd"] :=
  ⟨(C6_separator_splitting "ab" "cd" (by decide) (by decide)).1 (by decide),
   (C6_separator_splitting "ab" "cd" (by decide) (by decide)).2.1⟩

/-- The command (if any) successfully produced from one command string;
`none` both for skipped (token-less) command strings and for failing ones
(the latter cannot occur on a successful parse). -/
def okCmd (pd : String → Except String Nat) (pf : String → Option Float)
    (command_input : String) : Option Command :=
  match parseOne pd pf command_input with
  | .ok (some c) => some c
  | _ => none

/-- On success, `parseLoop` returns the accumulator followed by the
commands of the remaining command strings, in source order. -/
theorem parseLoop_ok_eq (pd : String → Except String Nat)
    (pf : String → Option Float) : ∀ (subs : List String)
    (acc cmds : List Command), parseLoop pd pf subs acc = .ok cmds →
      cmds = acc ++ subs.filterMap (okCmd pd pf) := by
  intro subs
  induction subs with
  | nil =>
    intro acc cmds h
    rw [show parseLoop pd pf [] acc = .ok acc from rfl] at h
    cases h
    simp
  | cons x rest ih =>
    intro acc cmds h
    rw [show parseLoop pd pf (x :: rest) acc =
        (match parseOne pd pf x with
         | .error e => .error e
         | .ok none => parseLoop pd pf rest acc
         | .ok (some command) => parseLoop pd pf rest (acc ++ [command]))
      from rfl] at h
    rcases hp : parseOne pd pf x with e | c
    · rw [hp] at h
      cases h
    · rw [hp] at h
      rcases c with _ | c
      · rw [List.filterMap_cons]
        rw [show okCmd pd pf x = none from by unfold okCmd; rw [hp]]
        exact ih acc cmds h
      · rw [List.filterMap_cons]
        rw [show okCmd pd pf x = some c from by unfold okCmd; rw [hp]]
        have := ih (acc ++ [c]) cmds h
        simpa using this

/-- If every command string before `s` parses without error and `s` fails
with `e`, the whole loop fails with exactly `e`. -/
theorem parseLoop_first_error (pd : String → Except String Nat)
    (pf : String → Option Float) : ∀ (pre : List String) (s : String)
    (post : List String) (acc : List Command) (e : CommandParseError),
    (∀ x ∈ pre, ∃ r, parseOne pd pf x = .ok r) →
    parseOne pd pf s = .error e →
    parseLoop pd pf (pre ++ s :: post) acc = .error e := by
  intro pre
  induction pre with
  | nil =>
    intro s post acc e _ hs
    rw [show (([] : List String) ++ s :: post) = s :: post from rfl]
    rw [show parseLoop pd pf (s :: post) acc =
        (match parseOne pd pf s with
         | .error e => .error e
         | .ok none => parseLoop pd pf post acc
         | .ok (some command) => parseLoop pd pf post (acc ++ [command]))
      from rfl, hs]
  | cons x xs ih =>
    intro s post acc e hpre hs
    obtain ⟨r, hr⟩ := hpre x (List.mem_cons_self x xs)
    have hxs : ∀ y ∈ xs, ∃ r, parseOne pd pf y = .ok r := fun y hy =>
      hpre y (List.mem_cons_of_mem x hy)
    rw [show ((x :: xs) ++ s :: post) = x :: (xs ++ s :: post) from rfl]
    rw [show parseLoop pd pf (x :: (xs ++ s :: post)) acc =
        (match parseOne pd pf x with
         | .error e => .error e
         | .ok none => parseLoop pd pf (xs ++ s :: post) acc
         | .ok (some command) =>
           parseLoop pd pf (xs ++ s :: post) (acc ++ [command]))
      from rfl, hr]
    rcases r with _ | c
    · exact ih s post acc e hxs hs
    · exact ih s post (acc ++ [c]) e hxs hs

/-- C8: the commands returned by `parse` appear in the order of the source
command strings they came from, and if some command string fails to parse
(all earlier ones succeeding), the whole call returns exactly that error
and no commands. -/
theorem C8_order_and_fail_fast (pd : String → Except String Nat)
    (pf : String → Option Float) (input : String) :
    (∀ cmds, parse pd pf input = .ok cmds →
      cmds = (splitCommands input).filterMap (okCmd pd pf)) ∧
    (∀ (pre : List String) (s : String) (post : List String)
      (e : CommandParseError), splitCommands input = pre ++ s :: post →
      (∀ x ∈ pre, ∃ r, parseOne pd pf x = .ok r) →
      parseOne pd pf s = .error e →
      parse pd pf input = .error e) := by
  constructor
  · intro cmds h
    have := parseLoop_ok_eq pd pf (splitCommands input) [] cmds h
    simpa using this
  · intro pre s post e hsplit hpre hs
    unfold parse
    rw [hsplit]
    exact parseLoop_first_error pd pf pre s post [] e hpre hs

/-- C8 (witness): `stop;bogus` — the first command string succeeds, the
second fails, and the whole call returns the second's error. -/
theorem C8_order_and_fail_fast_witness :
    parse pdNone pfNone "stop;bogus" = .error (.NoSuchCommand "bogus") :=
  (C8_order_and_fail_fast pdNone pfNone "stop;bogus").2 ["stop"] "bogus" []
    (.NoSuchCommand "bogus") rfl
    (by
      intro x hx
      rw [List.mem_singleton] at hx
      subst hx
      exact ⟨some .Stop, rfl⟩)
    rfl

/-- Every command name (and alias) recognised by the big match of `parse`
(`src/command.rs` 231-551). -/
def commandNames : List String :=
  ["quit", "q", "x", "playpause", "pause", "toggleplay", "toggleplayback",
   "stop", "previous", "next", "clear", "queue", "playnext", "play",
   "update", "focus", "seek", "volup", "voldown", "repeat", "loop",
   "shuffle", "back", "open", "goto", "move", "shift", "search", "jump",
   "jumpnext", "jumpprevious", "help", "noop", "sort", "logout", "similar",
   "redraw", "exec", "reconnect"]

set_option maxHeartbeats 2000000

/-- A leading token that is none of the recognised command names falls
through to the `NoSuchCommand` arm, whatever the arguments. -/
theorem parseNamed_unknown (pd : String → Except String Nat)
    (pf : String → Option Float) (command : String) (args : List String)
    (h : command ∉ commandNames) :
    parseNamed pd pf command args = .error (.NoSuchCommand command) := by
  unfold parseNamed
  repeat' split
  all_goals simp_all [commandNames]

/-- An unrecognised `open` argument produces `BadEnumArg` with the literal
accepted list and `optional := false`. -/
theorem parseNamed_open_bad (pd : String → Except String Nat)
    (pf : String → Option Float) (v : String) (rest : List String)
    (h : v ∉ (["selected", "current"] : List String)) :
    parseNamed pd pf "open" (v :: rest) =
      .error (.BadEnumArg v ["selected", "current"] false) := by
  simp only [parseNamed]
  repeat' split
  all_goals simp_all

/-- An unrecognised `repeat` argument produces `BadEnumArg` with the
literal accepted list and `optional := true` (omission is valid). -/
theorem parseNamed_repeat_bad (pd : String → Except String Nat)
    (pf : String → Option Float) (v : String) (rest : List String)
    (h : v ∉ (["list", "playlist", "queue", "track", "once", "single",
               "none", "off"] : List String)) :
    parseNamed pd pf "repeat" (v :: rest) =
      .error (.BadEnumArg v
        ["list", "playlist", "queue", "track", "once", "single", "none",
         "off"] true) := by
  simp only [parseNamed]
  repeat' split
  all_goals simp_all

/-- C9: an unknown leading token fails with `NoSuchCommand` carrying that
token; a missing required enum argument fails with `InsufficientArgs`; an
unrecognised enum argument fails with `BadEnumArg` carrying the literal
accepted list, with `optional = false` for `open` (argument required) and
`optional = true` for `repeat` (omission valid, parsing to `Repeat none`);
concretely `parse "bogus"`, `parse "open"`, `parse "open nowhere"` fail
exactly as the spec states. -/
theorem C9_error_taxonomy (pd : String → Except String Nat)
    (pf : String → Option Float) :
    (∀ (command : String) (args : List String), command ∉ commandNames →
      parseTokens pd pf (command :: args) =
        .error (.NoSuchCommand command)) ∧
    parseTokens pd pf ["open"] =
      .error (.InsufficientArgs "open" (some "selected|current")) ∧
    (∀ (v : String) (rest : List String),
      v ∉ (["selected", "current"] : List String) →
      parseTokens pd pf ("open" :: v :: rest) =
        .error (.BadEnumArg v ["selected", "current"] false)) ∧
    (∀ (v : String) (rest : List String),
      v ∉ (["list", "playlist", "queue", "track", "once", "single", "none",
            "off"] : List String) →
      parseTokens pd pf ("repeat" :: v :: rest) =
        .error (.BadEnumArg v
          ["list", "playlist", "queue", "track", "once", "single", "none",
           "off"] true)) ∧
    parseTokens pd pf ["repeat"] = .ok (some (.Repeat none)) ∧
    parse pd pf "bogus" = .error (.NoSuchCommand "bogus") ∧
    parse pd pf "open" =
      .error (.InsufficientArgs "open" (some "selected|current")) ∧
    parse pd pf "open nowhere" =
      .error (.BadEnumArg "nowhere" ["selected", "current"] false) :=
  ⟨fun command args h => parseNamed_unknown pd pf command args h,
   rfl,
   fun v rest h => parseNamed_open_bad pd pf v rest h,
   fun v rest h => parseNamed_repeat_bad pd pf v rest h,
   rfl, rfl, rfl, rfl⟩

/-- C9 (witness): the general error lemmas at concrete unknown tokens. -/
theorem C9_error_taxonomy_witness :
    parseTokens pdNone pfNone ["bogus"] = .error (.NoSuchCommand "bogus") ∧
    parseTokens pdNone pfNone ["open", "nowhere"] =
      .error (.BadEnumArg "nowhere" ["selected", "current"] false) ∧
    parseTokens pdNone pfNone ["repeat", "sometimes"] =
      .error (.BadEnumArg "sometimes"
        ["list", "playlist", "queue", "track", "once", "single", "none",
         "off"] true) :=
  ⟨(C9_error_taxonomy pdNone pfNone).1 "bogus" [] (by decide),
   (C9_error_taxonomy pdNone pfNone).2.2.1 "nowhere" [] (by decide),
   (C9_error_taxonomy pdNone pfNone).2.2.2.1 "sometimes" [] (by decide)⟩

end Ncspot
